import Mathlib

/-!
Shallow embedding of `src/echochamber/client.py` (the `Client` test driver for
a jabberite chat process) and proofs of the specification claims about it.

Modelling conventions:
* Python byte strings are `List Char` (each byte one `Char`).
* Wall-clock time is `ℤ`: integer ticks of an arbitrarily fine time unit
  (`time.time()` is an explicit clock field `now`).  Every timing claim is an
  inequality, so it is insensitive to the chosen granularity.
* The child process's byte output, as seen by `read_nonblocking`, is an oracle
  list: each entry is the duration the underlying read took and the byte it
  produced (`none` = the read raised a timeout).  A run returns `none` when the
  oracle violates the pexpect contract (negative duration or a read that takes
  longer than the budget it was given), so theorems quantify only over
  environments pexpect can actually produce.
* `pexpect.expect` is modelled at line granularity over the buffered output
  `pending`: it consumes lines until the first one whose text matches the
  pattern (leftmost search, greedy groups, exactly as `re.search` behaves on
  the concrete patterns the client uses); on timeout the buffer is retained,
  which is pexpect's documented behaviour.
* Accessing an attribute of `self._process` while it is `None` fails; the
  error taxonomy calls this `processUnavailable`.
-/

set_option linter.unusedVariables false

namespace EchoChamber

/-- Error taxonomy: a deadline elapsed (pexpect `TIMEOUT`, which also carries
unmatched-pattern failures), or an operation needing a live child process ran
with `_process = None`. -/
inductive Err where
  | timeout
  | processUnavailable
deriving DecidableEq, Repr

deriving instance DecidableEq for Except

/-- The spawned child process handle: pid plus liveness flag. -/
structure ProcessHandle where
  pid : Nat
  alive : Bool
deriving DecidableEq, Repr

/-- One response of the environment to a `read_nonblocking(1, budget)` call:
how long the call took and the byte it returned (`none` = TIMEOUT raised). -/
structure ReadResult where
  dur : ℤ
  byte : Option Char
deriving DecidableEq, Repr

/-- Python's binary `max`, written out so that concrete instances reduce
inside the kernel. -/
def qmax (a b : ℤ) : ℤ := if a ≤ b then b else a

/-- Python 2 `\w` without `re.UNICODE`: `[a-zA-Z0-9_]`. -/
def isWordChar (c : Char) : Bool := c.isAlphanum || c == '_'

/-- `int(...)` on a decimal digit string. -/
def natOfDigits (l : List Char) : Nat :=
  l.foldl (fun a c => 10 * a + (c.toNat - 48)) 0

/-- The decimal digit character for `n < 10`. -/
def digitChar : Nat → Char
  | 0 => '0' | 1 => '1' | 2 => '2' | 3 => '3' | 4 => '4'
  | 5 => '5' | 6 => '6' | 7 => '7' | 8 => '8' | _ => '9'

/-- Decimal rendering loop with an explicit fuel bound (kept structural so
concrete instances reduce inside the kernel); `fuel > n` always suffices. -/
def renderNatAux : Nat → Nat → List Char
  | 0, _ => []
  | Nat.succ fuel, n =>
    if n < 10 then [digitChar n]
    else renderNatAux fuel (n / 10) ++ [digitChar (n % 10)]

/-- Python `str(...)`/`"{}".format(...)` rendering of a nonnegative integer. -/
def renderNat (n : Nat) : List Char := renderNatAux (n + 1) n

/-- `(.*)$` on the tail of the line, Python semantics: `.` never matches a
newline and `$` also matches just before one trailing newline. -/
def dotStarBody (body : List Char) : Option (List Char) :=
  if '\n' ∈ body then
    if body.getLast? = some '\n' ∧ '\n' ∉ body.dropLast then
      some body.dropLast
    else none
  else some body

/-- Strip a literal off the front of a string, or fail. -/
def stripLit : List Char → List Char → Option (List Char)
  | [], s => some s
  | _ :: _, [] => none
  | p :: ps, c :: cs => if p = c then stripLit ps cs else none

/-- `re.match` of `self.r_message = ^\*\* <(\d+)> <(\w+)> (.*)$` against a
line, returning the three capture groups.  The greedy `\d+`/`\w+` followed by
the non-digit/non-word `>` make maximal munch the exact regex semantics. -/
def msgGroups (line : List Char) : Option (List Char × List Char × List Char) :=
  (stripLit "** <".data line).bind (fun r1 =>
    if r1.takeWhile Char.isDigit = [] then none else
    (stripLit "> <".data (r1.dropWhile Char.isDigit)).bind (fun r3 =>
      if r3.takeWhile isWordChar = [] then none else
      (stripLit "> ".data (r3.dropWhile isWordChar)).bind (fun body =>
        (dotStarBody body).map
          (fun b =>
            (r1.takeWhile Char.isDigit, r3.takeWhile isWordChar, b)))))

/-- The spec's `MessageEvent` record. -/
structure MessageEvent where
  conversationId : Nat
  senderHandle : List Char
  body : List Char
deriving DecidableEq, Repr

/-- The `MessageEvent` a queued line denotes: capture group 1 read as the
integer conversation id, groups 2 and 3 verbatim. -/
def mkMessageEvent (line : List Char) : Option MessageEvent :=
  (msgGroups line).map (fun g => ⟨natOfDigits g.1, g.2.1, g.2.2⟩)

/-- Relational specification of the message pattern
`^\*\* <(\d+)> <(\w+)> (.*)$` on a newline-free line, written independently of
the executable matcher: the line decomposes into the literal scaffolding with
a nonempty digit group, a nonempty word group, and an arbitrary body. -/
def MsgPat (line d w b : List Char) : Prop :=
  line = "** <".data ++ d ++ "> <".data ++ w ++ "> ".data ++ b ∧
  d ≠ [] ∧ (∀ c ∈ d, c.isDigit = true) ∧
  w ≠ [] ∧ (∀ c ∈ w, isWordChar c = true) ∧
  '\n' ∉ b

instance (line d w b : List Char) : Decidable (MsgPat line d w b) := by
  unfold MsgPat
  infer_instance

/-- The closed set of regular expressions the client passes to
`self._process.expect`, with their parameters. -/
inductive Pat where
  /-- `\*\* Connected` -/
  | connected
  /-- `\*\* Created conversation (\d+):` -/
  | created
  /-- `\*\* Selecting conversation (\d+)` -/
  | selecting
  /-- `\*\* <(\d)> {self.username} invited user {username}` -/
  | inviteConfirm (inviter invitee : List Char)
  /-- `\*\* Invited to conversation {conversation_id}` -/
  | invitedTo (idStr : List Char)
  /-- `you joined the chat session` -/
  | youJoined
  /-- `{client.username} joined the chat session` -/
  | userJoined (u : List Char)
deriving DecidableEq, Repr

/-- Try to match one of the client's patterns at the start of `s`, returning
its capture groups.  Greedy `\d+` before a non-digit literal is maximal
munch. -/
def patAt (p : Pat) (s : List Char) : Option (List (List Char)) :=
  match p with
  | .connected => (stripLit "** Connected".data s).map (fun _ => [])
  | .created =>
    match stripLit "** Created conversation ".data s with
    | none => none
    | some r =>
      let ds := r.takeWhile Char.isDigit
      if ds = [] then none else
      match r.dropWhile Char.isDigit with
      | ':' :: _ => some [ds]
      | _ => none
  | .selecting =>
    match stripLit "** Selecting conversation ".data s with
    | none => none
    | some r =>
      let ds := r.takeWhile Char.isDigit
      if ds = [] then none else some [ds]
  | .inviteConfirm inv ine =>
    match stripLit "** <".data s with
    | none => none
    | some (c :: r2) =>
      if c.isDigit then
        (stripLit ("> ".data ++ inv ++ " invited user ".data ++ ine) r2).map
          (fun _ => [[c]])
      else none
    | some [] => none
  | .invitedTo idStr =>
    (stripLit ("** Invited to conversation ".data ++ idStr) s).map (fun _ => [])
  | .youJoined =>
    (stripLit "you joined the chat session".data s).map (fun _ => [])
  | .userJoined u =>
    (stripLit (u ++ " joined the chat session".data) s).map (fun _ => [])

/-- `re.search` over a line: leftmost position at which the pattern matches
(none of the client's patterns can match the empty suffix). -/
def patSearch (p : Pat) : List Char → Option (List (List Char))
  | [] => none
  | c :: rest =>
    match patAt p (c :: rest) with
    | some gs => some gs
    | none => patSearch p rest

/-- pexpect's pattern wait over buffered output lines: discard lines until the
first one the pattern matches somewhere inside, returning its capture groups
and the lines remaining after it. -/
def consumeUntil (p : Pat) :
    List (List Char) → Option (List (List Char) × List (List Char))
  | [] => none
  | l :: rest =>
    match patSearch p l with
    | some gs => some (gs, rest)
    | none => consumeUntil p rest

/-- Commands the driver issues to the outside world, in order: spawning the
child, writing a line to its stdin, blocking on a pattern of its output, and
forcibly terminating it. -/
inductive Action where
  | spawn (pid : Nat)
  | sendLine (text : List Char)
  | waitPattern (p : Pat)
  | terminate (pid : Nat)
deriving DecidableEq, Repr

/-- Which of the two drivers of `invite_and_join_conversation` acted. -/
inductive Role where
  | inviterR
  | inviteeR
deriving DecidableEq, Repr

/-- The state of one `Client` driver instance: the constructor-derived
identity fields, the child process handle, the buffered child output
(`pending` as lines for pattern waits, `oracle`/`now` as the timed byte stream
for `read_line`), the FIFO `messages` queue of raw matched lines, the selected
conversation, the debug log sink flag, and the environment dict built by
`connect`. -/
structure Driver where
  username : List Char
  xmppUser : List Char
  np1secPath : List Char
  ldLibraryPath : List Char
  _process : Option ProcessHandle
  pending : List (List Char)
  oracle : List ReadResult
  now : ℤ
  messages : List (List Char)
  conversation_id : Option Nat
  logfile : Bool
  env : Option (List Char)
deriving DecidableEq, Repr

/-- `Client.__init__`: username is the account's local part (text before the
first `@`), no process, empty queue, no conversation selected. -/
def clientInit (user password np1sec ld : List Char) : Driver :=
  { username := user.takeWhile (fun c => c ≠ '@')
  , xmppUser := user
  , np1secPath := np1sec
  , ldLibraryPath := ld
  , _process := none
  , pending := []
  , oracle := []
  , now := 0
  , messages := []
  , conversation_id := none
  , logfile := false
  , env := none }

/-- `Client.send_message`: write the text plus line terminator to the child's
stdin; fails if `self._process` is `None`. -/
def send_message (m : List Char) (d : Driver) :
    Except Err Unit × Driver × List Action :=
  match d._process with
  | none => (.error .processUnavailable, d, [])
  | some _ => (.ok (), d, [.sendLine m])

/-- `Client.expect`: block until a buffered output line matches the pattern,
consuming through it and returning the capture groups; on timeout the buffer
is retained (pexpect keeps unmatched data for the next call).  Fails if
`self._process` is `None`. -/
def expect (p : Pat) (d : Driver) :
    Except Err (List (List Char)) × Driver × List Action :=
  match d._process with
  | none => (.error .processUnavailable, d, [])
  | some _ =>
    match consumeUntil p d.pending with
    | some (gs, rest) => (.ok gs, { d with pending := rest }, [.waitPattern p])
    | none => (.error .timeout, d, [.waitPattern p])

/-- `Client.set_debug`: point the process's logfile at a sink (or clear it);
fails if `self._process` is `None`. -/
def set_debug (enable : Bool) (d : Driver) :
    Except Err Unit × Driver × List Action :=
  match d._process with
  | none => (.error .processUnavailable, d, [])
  | some _ => (.ok (), { d with logfile := enable }, [])

/-- `Client.connect`: always rebuilds `self.env` (the `LD_LIBRARY_PATH`
concatenation), then, only if no process handle exists, spawns the child
(whose future output is `output`) and waits for the `** Connected` line. -/
def connect (newPid : Nat) (output : List (List Char)) (d : Driver) :
    Except Err Unit × Driver × List Action :=
  match d._process with
  | some _ =>
    (.ok (), { d with env := some (d.np1secPath ++ ":".data ++ d.ldLibraryPath) }, [])
  | none =>
    match expect .connected { d with
        env := some (d.np1secPath ++ ":".data ++ d.ldLibraryPath),
        _process := some ⟨newPid, true⟩, pending := output } with
    | (.ok _, d2, as) => (.ok (), d2, .spawn newPid :: as)
    | (.error e, d2, as) => (.error e, d2, .spawn newPid :: as)

/-- `Client.create_conversation`: send `/create`, wait for the creation
confirmation, return the captured id as an integer.  Does not touch
`conversation_id`. -/
def create_conversation (d : Driver) : Except Err Nat × Driver × List Action :=
  match send_message "/create".data d with
  | (.error e, d1, a1) => (.error e, d1, a1)
  | (.ok _, d1, a1) =>
    match expect .created d1 with
    | (.ok gs, d2, a2) => (.ok (natOfDigits (gs.headD [])), d2, a1 ++ a2)
    | (.error e, d2, a2) => (.error e, d2, a1 ++ a2)

/-- `Client.select_conversation`: send `/select {id}` (the argument already
rendered the way Python's `format` renders it), wait for
`\*\* Selecting conversation (\d+)` — any id —, store the captured integer in
`self.conversation_id` and return it. -/
def select_conversation (idStr : List Char) (d : Driver) :
    Except Err Nat × Driver × List Action :=
  match send_message ("/select ".data ++ idStr) d with
  | (.error e, d1, a1) => (.error e, d1, a1)
  | (.ok _, d1, a1) =>
    match expect .selecting d1 with
    | (.ok gs, d2, a2) =>
      let n := natOfDigits (gs.headD [])
      (.ok n, { d2 with conversation_id := some n }, a1 ++ a2)
    | (.error e, d2, a2) => (.error e, d2, a1 ++ a2)

/-- `Client.invite_conversation`: send `/invite {username}` and wait for this
driver's own invite confirmation.  No state change. -/
def invite_conversation (u : List Char) (d : Driver) :
    Except Err Unit × Driver × List Action :=
  match send_message ("/invite ".data ++ u) d with
  | (.error e, d1, a1) => (.error e, d1, a1)
  | (.ok _, d1, a1) =>
    match expect (.inviteConfirm d1.username u) d1 with
    | (.ok _, d2, a2) => (.ok (), d2, a1 ++ a2)
    | (.error e, d2, a2) => (.error e, d2, a1 ++ a2)

/-- `Client.join_conversation`: wait for the invitation notification, select
the conversation, send `/join`, wait for the join confirmation. -/
def join_conversation (idStr : List Char) (d : Driver) :
    Except Err Unit × Driver × List Action :=
  match expect (.invitedTo idStr) d with
  | (.error e, d1, a1) => (.error e, d1, a1)
  | (.ok _, d1, a1) =>
    match select_conversation idStr d1 with
    | (.error e, d2, a2) => (.error e, d2, a1 ++ a2)
    | (.ok _, d2, a2) =>
      match send_message "/join".data d2 with
      | (.error e, d3, a3) => (.error e, d3, a1 ++ a2 ++ a3)
      | (.ok _, d3, a3) =>
        match expect .youJoined d3 with
        | (.ok _, d4, a4) => (.ok (), d4, a1 ++ a2 ++ a3 ++ a4)
        | (.error e, d4, a4) => (.error e, d4, a1 ++ a2 ++ a3 ++ a4)

/-- How Python's `"{}".format` renders `self.conversation_id`. -/
def fmtOptId : Option Nat → List Char
  | some n => renderNat n
  | none => "None".data

/-- `Client.invite_and_join_conversation` run on the inviter (`self`) and the
invitee (`client`): invite the invitee's username, run the invitee's
`join_conversation` on the inviter's current conversation id, then wait on the
inviter's own stream for `{invitee} joined the chat session`. -/
def invite_and_join_conversation (inviter invitee : Driver) :
    Except Err Unit × Driver × Driver × List (Role × Action) :=
  match invite_conversation invitee.username inviter with
  | (.error e, i1, a1) =>
    (.error e, i1, invitee, a1.map (fun a => (Role.inviterR, a)))
  | (.ok _, i1, a1) =>
    match join_conversation (fmtOptId i1.conversation_id) invitee with
    | (.error e, c1, a2) =>
      (.error e, i1, c1,
        a1.map (fun a => (Role.inviterR, a)) ++
        a2.map (fun a => (Role.inviteeR, a)))
    | (.ok _, c1, a2) =>
      match expect (.userJoined c1.username) i1 with
      | (.ok _, i2, a3) =>
        (.ok (), i2, c1,
          a1.map (fun a => (Role.inviterR, a)) ++
          a2.map (fun a => (Role.inviteeR, a)) ++
          a3.map (fun a => (Role.inviterR, a)))
      | (.error e, i2, a3) =>
        (.error e, i2, c1,
          a1.map (fun a => (Role.inviterR, a)) ++
          a2.map (fun a => (Role.inviteeR, a)) ++
          a3.map (fun a => (Role.inviterR, a)))

/-- `Client.stop`: if a process handle exists, forcibly terminate it (the OS
kill actually happens only while it is alive) and mark it dead; otherwise do
nothing. -/
def stop (d : Driver) : Driver × List Action :=
  match d._process with
  | none => (d, [])
  | some p =>
    ({ d with _process := some ⟨p.pid, false⟩ },
      if p.alive then [.terminate p.pid] else [])

/-- The byte-read loop of `Client.read_line` over the oracle: the deadline
`endT` is fixed, each `read_nonblocking(1, ·)` gets budget
`max 0 (endT - now)`, a `\n` byte ends the line, a TIMEOUT propagates.
Returns `none` when the oracle breaks the pexpect contract (a read with
negative duration or longer than its budget) or is exhausted. -/
def readLineAux :
    List ReadResult → ℤ → ℤ → List Char →
      Option (Except Err (List Char) × ℤ × List ReadResult)
  | [], _, _, _ => none
  | r :: rest, endT, now, acc =>
    if 0 ≤ r.dur ∧ r.dur ≤ qmax 0 (endT - now) then
      match r.byte with
      | none => some (.error .timeout, now + r.dur, rest)
      | some c =>
        if c = '\n' then some (.ok acc.reverse, now + r.dur, rest)
        else readLineAux rest endT (now + r.dur) (c :: acc)
    else none

/-- `Client.read_line`: fix `end = time.time() + timeout` once, then read one
byte at a time with budget `max(0, end - time.time())` until a newline.
Fails if `self._process` is `None`. -/
def read_line (timeout : ℤ) (d : Driver) :
    Option (Except Err (List Char) × Driver) :=
  match d._process with
  | none => some (.error .processUnavailable, d)
  | some _ =>
    match readLineAux d.oracle (d.now + timeout) d.now [] with
    | none => none
    | some (r, t, rest) => some (r, { d with now := t, oracle := rest })

/-- `Client.read_event`: read one line; if it matches the message pattern
append the raw line to the `messages` queue, otherwise discard it. -/
def read_event (timeout : ℤ) (d : Driver) :
    Option (Except Err Unit × Driver) :=
  match read_line timeout d with
  | none => none
  | some (.error e, d1) => some (.error e, d1)
  | some (.ok line, d1) =>
    if (msgGroups line).isSome then
      some (.ok (), { d1 with messages := d1.messages ++ [line] })
    else some (.ok (), d1)

/-- The polling loop of `Client.read_message` against the fixed absolute end
time: pop the oldest queued message if there is one, otherwise call
`read_event` with the shrinking remaining time and re-check.  `fuel` only
bounds the number of iterations of the model. -/
def readMessageLoop : Nat → ℤ → Driver → Option (Except Err (List Char) × Driver)
  | 0, _, _ => none
  | Nat.succ fuel, endT, d =>
    match d.messages with
    | m :: rest => some (.ok m, { d with messages := rest })
    | [] =>
      match read_event (qmax 0 (endT - d.now)) d with
      | none => none
      | some (.error e, d1) => some (.error e, d1)
      | some (.ok _, d1) => readMessageLoop fuel endT d1

/-- `Client.read_message`: fix `end = time.time() + timeout` once and run the
polling loop. -/
def read_message (fuel : Nat) (timeout : ℤ) (d : Driver) :
    Option (Except Err (List Char) × Driver) :=
  readMessageLoop fuel (d.now + timeout) d

/-! ## Regex lemmas: the executable matcher agrees with the relational
pattern specification -/

theorem stripLit_eq_some :
    ∀ (lit s r : List Char), (stripLit lit s = some r ↔ s = lit ++ r)
  | [], s, r => by simp [stripLit]
  | p :: ps, [], r => by simp [stripLit]
  | p :: ps, c :: cs, r => by
    simp only [stripLit, List.cons_append]
    by_cases hpc : p = c
    · subst hpc
      simp [stripLit_eq_some ps cs r]
    · simp only [if_neg hpc]
      constructor
      · intro hf; exact absurd hf (by simp)
      · intro hcs
        injection hcs with hh _
        exact absurd hh.symm hpc

theorem takeWhile_all_append (p : Char → Bool) (d : List Char) (c : Char)
    (t : List Char) (hd : ∀ x ∈ d, p x = true) (hc : p c = false) :
    (d ++ c :: t).takeWhile p = d := by
  induction d with
  | nil => simp [List.takeWhile_cons, hc]
  | cons a d ih =>
    have ha : p a = true := hd a (by simp)
    simp only [List.cons_append, List.takeWhile_cons, ha, if_true]
    rw [ih (fun x hx => hd x (by simp [hx]))]

theorem dropWhile_all_append (p : Char → Bool) (d : List Char) (c : Char)
    (t : List Char) (hd : ∀ x ∈ d, p x = true) (hc : p c = false) :
    (d ++ c :: t).dropWhile p = c :: t := by
  induction d with
  | nil => simp [List.dropWhile_cons, hc]
  | cons a d ih =>
    have ha : p a = true := hd a (by simp)
    simp only [List.cons_append, List.dropWhile_cons, ha, if_true]
    exact ih (fun x hx => hd x (by simp [hx]))

theorem dotStarBody_of_no_newline (b : List Char) (h : '\n' ∉ b) :
    dotStarBody b = some b := by
  simp [dotStarBody, h]

/-- Soundness of the matcher: on a newline-free line, a successful match
decomposes the line exactly as the relational pattern demands. -/
theorem msgGroups_sound (line g1 g2 g3 : List Char) (hln : '\n' ∉ line)
    (h : msgGroups line = some (g1, g2, g3)) : MsgPat line g1 g2 g3 := by
  unfold msgGroups at h
  rw [Option.bind_eq_some] at h
  obtain ⟨r1, h1, h⟩ := h
  rw [stripLit_eq_some] at h1
  split at h
  · exact absurd h (by simp)
  rename_i hds
  rw [Option.bind_eq_some] at h
  obtain ⟨r3, h2, h⟩ := h
  rw [stripLit_eq_some] at h2
  split at h
  · exact absurd h (by simp)
  rename_i hws
  rw [Option.bind_eq_some] at h
  obtain ⟨body, h3, h⟩ := h
  rw [stripLit_eq_some] at h3
  rw [Option.map_eq_some'] at h
  obtain ⟨b, hb, hprod⟩ := h
  injection hprod with u1 u23
  injection u23 with u2 u3
  subst u1; subst u2; subst u3
  have e1 : r1 = r1.takeWhile Char.isDigit ++ ("> <".data ++ r3) := by
    rw [← h2, List.takeWhile_append_dropWhile]
  have e2 : r3 = r3.takeWhile isWordChar ++ ("> ".data ++ body) := by
    rw [← h3, List.takeWhile_append_dropWhile]
  have hline : line = "** <".data ++
      (r1.takeWhile Char.isDigit ++ ("> <".data ++
        (r3.takeWhile isWordChar ++ ("> ".data ++ body)))) := by
    conv_lhs => rw [h1, e1, e2]
  have hbody : '\n' ∉ body := by
    intro hm
    exact hln (by rw [hline]; simp [hm])
  rw [dotStarBody_of_no_newline body hbody] at hb
  injection hb with hb
  subst hb
  refine ⟨by rw [hline]; simp, hds, ?_, hws, ?_, hbody⟩
  · exact fun c hc => List.mem_takeWhile_imp hc
  · exact fun c hc => List.mem_takeWhile_imp hc

/-- Completeness of the matcher: every relational decomposition of a line is
found by the matcher, with exactly those groups. -/
theorem msgGroups_complete (line g1 g2 g3 : List Char)
    (h : MsgPat line g1 g2 g3) : msgGroups line = some (g1, g2, g3) := by
  obtain ⟨hline, hd_ne, hd_dig, hw_ne, hw_word, hb⟩ := h
  have h1 : stripLit "** <".data line =
      some (g1 ++ "> <".data ++ g2 ++ "> ".data ++ g3) := by
    rw [stripLit_eq_some]
    rw [hline]; simp
  have hgt : Char.isDigit '>' = false := by decide
  have hgtw : isWordChar '>' = false := by decide
  have e1 : (g1 ++ "> <".data ++ g2 ++ "> ".data ++ g3) =
      g1 ++ ('>' :: ' ' :: '<' :: (g2 ++ ('>' :: ' ' :: g3))) := by simp
  have htw1 : (g1 ++ "> <".data ++ g2 ++ "> ".data ++ g3).takeWhile
      Char.isDigit = g1 := by
    rw [e1]; exact takeWhile_all_append _ _ _ _ hd_dig hgt
  have hdw1 : (g1 ++ "> <".data ++ g2 ++ "> ".data ++ g3).dropWhile
      Char.isDigit = '>' :: ' ' :: '<' :: (g2 ++ ('>' :: ' ' :: g3)) := by
    rw [e1]; exact dropWhile_all_append _ _ _ _ hd_dig hgt
  have h2 : stripLit "> <".data
      ('>' :: ' ' :: '<' :: (g2 ++ ('>' :: ' ' :: g3))) =
      some (g2 ++ ('>' :: ' ' :: g3)) := by
    rw [stripLit_eq_some]; simp
  have htw2 : (g2 ++ ('>' :: ' ' :: g3)).takeWhile isWordChar = g2 :=
    takeWhile_all_append _ _ _ _ hw_word hgtw
  have hdw2 : (g2 ++ ('>' :: ' ' :: g3)).dropWhile isWordChar =
      '>' :: ' ' :: g3 :=
    dropWhile_all_append _ _ _ _ hw_word hgtw
  have h3 : stripLit "> ".data ('>' :: ' ' :: g3) = some g3 := by
    rw [stripLit_eq_some]; simp
  unfold msgGroups
  rw [h1, Option.some_bind', htw1, hdw1]
  rw [if_neg (htw1 ▸ hd_ne), h2, Option.some_bind', htw2, hdw2,
    if_neg (htw2 ▸ hw_ne), h3, Option.some_bind',
    dotStarBody_of_no_newline g3 hb]
  simp [htw1, htw2]

/-- The two directions together: on newline-free lines (all lines produced by
`read_line` are), the executable matcher and the relational pattern agree. -/
theorem msgGroups_iff (line g1 g2 g3 : List Char) (hln : '\n' ∉ line) :
    msgGroups line = some (g1, g2, g3) ↔ MsgPat line g1 g2 g3 :=
  ⟨msgGroups_sound line g1 g2 g3 hln, msgGroups_complete line g1 g2 g3⟩

/-! ## Line reader lemmas -/

/-- A successfully read line never contains a newline: the accumulator only
ever receives non-newline bytes. -/
theorem readLineAux_ok_no_newline (oracle : List ReadResult) :
    ∀ (endT now : ℤ) (acc line : List Char) (t : ℤ) (rest : List ReadResult),
      readLineAux oracle endT now acc = some (.ok line, t, rest) →
      (∀ c ∈ acc, c ≠ '\n') → '\n' ∉ line := by
  induction oracle with
  | nil => intro endT now acc line t rest h _; simp [readLineAux] at h
  | cons r o ih =>
    intro endT now acc line t rest h hacc
    simp only [readLineAux] at h
    split at h
    · split at h
      · simp at h
      · rename_i c hc
        split at h
        · rename_i hnl
          injection h with hp
          injection hp with h1 h2
          injection h1 with h1
          subst h1
          intro hm
          rw [List.mem_reverse] at hm
          exact hacc '\n' hm rfl
        · rename_i hnl
          refine ih endT (now + r.dur) (c :: acc) line t rest h ?_
          intro x hx
          rcases List.mem_cons.mp hx with hx | hx
          · subst hx; exact hnl
          · exact hacc x hx
    · simp at h

/-- Timing invariant of the byte loop: under any environment pexpect can
produce, the loop never runs past the fixed deadline, and the only error it
can return is the propagated timeout. -/
theorem readLineAux_deadline (oracle : List ReadResult) :
    ∀ (endT now : ℤ) (acc : List Char) (res : Except Err (List Char))
      (t : ℤ) (rest : List ReadResult),
      readLineAux oracle endT now acc = some (res, t, rest) →
      now ≤ endT → t ≤ endT ∧ ∀ e, res = .error e → e = .timeout := by
  induction oracle with
  | nil => intro endT now acc res t rest h _; simp [readLineAux] at h
  | cons r o ih =>
    intro endT now acc res t rest h hle
    simp only [readLineAux] at h
    split at h
    · rename_i hv
      obtain ⟨h0, hbud⟩ := hv
      have hmax : qmax 0 (endT - now) = endT - now := if_pos (by linarith)
      have hstep : now + r.dur ≤ endT := by rw [hmax] at hbud; linarith
      split at h
      · injection h with hp
        injection hp with h1 h2
        injection h2 with h2a h2b
        subst h1; subst h2a
        refine ⟨hstep, fun e he => ?_⟩
        injection he with he
        exact he.symm
      · rename_i c hc
        split at h
        · injection h with hp
          injection hp with h1 h2
          injection h2 with h2a h2b
          subst h1; subst h2a
          exact ⟨hstep, fun e he => absurd he (by simp)⟩
        · exact ih endT (now + r.dur) (c :: acc) res t rest h hstep
    · simp at h

/-- `read_line` never changes the process handle, the message queue, the
pattern-wait buffer, or the selected conversation; only the clock and the
byte stream position move. -/
theorem read_line_frame (timeout : ℤ) (d : Driver) (r : Except Err (List Char))
    (d' : Driver) (h : read_line timeout d = some (r, d')) :
    d'._process = d._process ∧ d'.messages = d.messages ∧
    d'.pending = d.pending ∧ d'.conversation_id = d.conversation_id ∧
    d'.username = d.username := by
  unfold read_line at h
  split at h
  · injection h with hp
    injection hp with h1 h2
    subst h2
    exact ⟨rfl, rfl, rfl, rfl, rfl⟩
  · split at h
    · simp at h
    · injection h with hp
      injection hp with h1 h2
      subst h2
      exact ⟨rfl, rfl, rfl, rfl, rfl⟩

/-- `read_event` has the same frame except that it may append to the message
queue. -/
theorem read_event_frame (timeout : ℤ) (d : Driver) (r : Except Err Unit)
    (d' : Driver) (h : read_event timeout d = some (r, d')) :
    d'._process = d._process ∧ d'.pending = d.pending ∧
    d'.conversation_id = d.conversation_id ∧ d'.username = d.username := by
  unfold read_event at h
  split at h
  · simp at h
  · rename_i e d1 hrl
    injection h with hp
    injection hp with h1 h2
    subst h2
    have := read_line_frame timeout d (.error e) d1 hrl
    exact ⟨this.1, this.2.2.1, this.2.2.2.1, this.2.2.2.2⟩
  · rename_i line d1 hrl
    have hf := read_line_frame timeout d (.ok line) d1 hrl
    split at h
    · injection h with hp
      injection hp with h1 h2
      subst h2
      exact ⟨hf.1, hf.2.2.1, hf.2.2.2.1, hf.2.2.2.2⟩
    · injection h with hp
      injection hp with h1 h2
      subst h2
      exact ⟨hf.1, hf.2.2.1, hf.2.2.2.1, hf.2.2.2.2⟩

/-- A failed `read_event` cannot have enqueued anything. -/
theorem read_event_error_messages (timeout : ℤ) (d : Driver) (e : Err)
    (d' : Driver) (h : read_event timeout d = some (.error e, d')) :
    d'.messages = d.messages := by
  unfold read_event at h
  split at h
  · simp at h
  · rename_i e1 d1 hrl
    injection h with hp
    injection hp with h1 h2
    subst h2
    exact (read_line_frame timeout d (.error e1) d1 hrl).2.1
  · split at h
    · injection h with hp
      injection hp with h1 h2
      exact absurd h1 (by simp)
    · injection h with hp
      injection hp with h1 h2
      exact absurd h1 (by simp)

/-- Popping: with a nonempty queue `read_message` immediately removes and
returns the oldest element, regardless of time. -/
theorem readMessageLoop_pop (fuel : Nat) (endT : ℤ) (d : Driver)
    (m : List Char) (ms : List (List Char)) (h : d.messages = m :: ms) :
    readMessageLoop (fuel + 1) endT d = some (.ok m, { d with messages := ms }) := by
  unfold readMessageLoop
  rw [h]

/-- A failed `read_message` loop leaves the queue (necessarily empty at entry)
and the rest of the driver state other than the clock and stream position
unchanged. -/
theorem readMessageLoop_error_frame (fuel : Nat) :
    ∀ (endT : ℤ) (d : Driver) (e : Err) (d' : Driver),
      readMessageLoop fuel endT d = some (.error e, d') →
      d'.messages = d.messages ∧ d'._process = d._process ∧
      d'.pending = d.pending ∧ d'.conversation_id = d.conversation_id := by
  induction fuel with
  | zero => intro endT d e d' h; simp [readMessageLoop] at h
  | succ fuel ih =>
    intro endT d e d' h
    unfold readMessageLoop at h
    split at h
    · rename_i m ms hm
      injection h with hp
      injection hp with h1 h2
      exact absurd h1 (by simp)
    · rename_i hm
      split at h
      · simp at h
      · rename_i e1 d1 hre
        injection h with hp
        injection hp with h1 h2
        subst h2
        have hf := read_event_frame _ d (.error e1) d1 hre
        have hmsg := read_event_error_messages _ d e1 d1 hre
        exact ⟨hmsg, hf.1, hf.2.1, hf.2.2.1⟩
      · rename_i d1 hre
        have hf := read_event_frame _ d (.ok ()) d1 hre
        cases hm1 : d1.messages with
        | nil =>
          have := ih endT d1 e d' h
          rw [hm, ← hm1]
          exact ⟨this.1, this.2.1.trans hf.1, this.2.2.1.trans hf.2.1,
            this.2.2.2.trans hf.2.2.1⟩
        | cons m ms =>
          cases fuel with
          | zero => simp [readMessageLoop] at h
          | succ fuel2 =>
            rw [readMessageLoop_pop fuel2 endT d1 m ms hm1] at h
            injection h with hp
            injection hp with h1 h2
            exact absurd h1 (by simp)

/-! ## Operation inversion lemmas -/

theorem send_message_ok (m : List Char) (d : Driver) (u : Unit) (d' : Driver)
    (a : List Action) (h : send_message m d = (.ok u, d', a)) :
    d' = d ∧ a = [.sendLine m] := by
  unfold send_message at h
  split at h
  · injection h with h1 h2
    exact absurd h1 (by simp)
  · injection h with h1 h2
    injection h2 with h2 h3
    exact ⟨h2.symm, h3.symm⟩

theorem send_message_error (m : List Char) (d : Driver) (e : Err) (d' : Driver)
    (a : List Action) (h : send_message m d = (.error e, d', a)) :
    d' = d ∧ a = [] ∧ e = .processUnavailable := by
  unfold send_message at h
  split at h
  · injection h with h1 h2
    injection h2 with h2 h3
    injection h1 with h1
    exact ⟨h2.symm, h3.symm, h1.symm⟩
  · injection h with h1 h2
    exact absurd h1 (by simp)

theorem expect_ok (p : Pat) (d : Driver) (gs : List (List Char)) (d' : Driver)
    (a : List Action) (h : expect p d = (.ok gs, d', a)) :
    ∃ rest, consumeUntil p d.pending = some (gs, rest) ∧
      d' = { d with pending := rest } ∧ a = [.waitPattern p] := by
  unfold expect at h
  split at h
  · injection h with h1 h2
    exact absurd h1 (by simp)
  · split at h
    · rename_i gs0 rest hcu
      injection h with h1 h2
      injection h2 with h2 h3
      injection h1 with h1
      subst h1
      exact ⟨rest, hcu, h2.symm, h3.symm⟩
    · injection h with h1 h2
      exact absurd h1 (by simp)

theorem expect_error (p : Pat) (d : Driver) (e : Err) (d' : Driver)
    (a : List Action) (h : expect p d = (.error e, d', a)) :
    d' = d := by
  unfold expect at h
  split at h
  · injection h with h1 h2
    injection h2 with h2 h3
    exact h2.symm
  · split at h
    · injection h with h1 h2
      exact absurd h1 (by simp)
    · injection h with h1 h2
      injection h2 with h2 h3
      exact h2.symm

theorem invite_conversation_ok (u : List Char) (d : Driver) (v : Unit)
    (d' : Driver) (a : List Action)
    (h : invite_conversation u d = (.ok v, d', a)) :
    ∃ gs rest,
      consumeUntil (Pat.inviteConfirm d.username u) d.pending = some (gs, rest) ∧
      d' = { d with pending := rest } ∧
      a = [.sendLine ("/invite ".data ++ u),
           .waitPattern (.inviteConfirm d.username u)] := by
  unfold invite_conversation at h
  split at h
  · rename_i e d1 a1 hsm
    injection h with h1 h2
    exact absurd h1 (by simp)
  · rename_i u1 d1 a1 hsm
    obtain ⟨hd1, ha1⟩ := send_message_ok _ _ _ _ _ hsm
    subst hd1
    split at h
    · rename_i gs d2 a2 hex
      obtain ⟨rest, hcu, hd2, ha2⟩ := expect_ok _ _ _ _ _ hex
      injection h with h1 h2
      injection h2 with h2 h3
      subst h2; subst h3
      exact ⟨gs, rest, hcu, hd2, by rw [ha1, ha2]; rfl⟩
    · rename_i e d2 a2 hex
      injection h with h1 h2
      exact absurd h1 (by simp)

theorem select_conversation_ok (s : List Char) (d : Driver) (n : Nat)
    (d' : Driver) (a : List Action)
    (h : select_conversation s d = (.ok n, d', a)) :
    ∃ gs rest,
      consumeUntil Pat.selecting d.pending = some (gs, rest) ∧
      n = natOfDigits (gs.headD []) ∧
      d' = { d with pending := rest, conversation_id := some n } ∧
      a = [.sendLine ("/select ".data ++ s), .waitPattern .selecting] := by
  unfold select_conversation at h
  split at h
  · rename_i e d1 a1 hsm
    injection h with h1 h2
    exact absurd h1 (by simp)
  · rename_i u1 d1 a1 hsm
    obtain ⟨hd1, ha1⟩ := send_message_ok _ _ _ _ _ hsm
    subst hd1
    split at h
    · rename_i gs d2 a2 hex
      obtain ⟨rest, hcu, hd2, ha2⟩ := expect_ok _ _ _ _ _ hex
      injection h with h1 h2
      injection h2 with h2 h3
      injection h1 with h1
      subst h1
      subst h2; subst h3
      subst hd2
      exact ⟨gs, rest, hcu, rfl, rfl, by rw [ha1, ha2]; rfl⟩
    · rename_i e d2 a2 hex
      injection h with h1 h2
      exact absurd h1 (by simp)

theorem select_conversation_error (s : List Char) (d : Driver) (e : Err)
    (d' : Driver) (a : List Action)
    (h : select_conversation s d = (.error e, d', a)) :
    d' = d := by
  unfold select_conversation at h
  split at h
  · rename_i e1 d1 a1 hsm
    injection h with h1 h2
    injection h2 with h2 h3
    injection h1 with h1
    subst h1; subst h2
    exact (send_message_error _ _ _ _ _ hsm).1
  · rename_i u1 d1 a1 hsm
    obtain ⟨hd1, ha1⟩ := send_message_ok _ _ _ _ _ hsm
    subst hd1
    split at h
    · injection h with h1 h2
      exact absurd h1 (by simp)
    · rename_i e1 d2 a2 hex
      injection h with h1 h2
      injection h2 with h2 h3
      subst h2
      exact expect_error _ _ _ _ _ hex

theorem join_conversation_ok (s : List Char) (d : Driver) (d' : Driver)
    (a : List Action) (h : join_conversation s d = (.ok (), d', a)) :
    ∃ n rest,
      d' = { d with pending := rest, conversation_id := some n } ∧
      a = [.waitPattern (.invitedTo s),
           .sendLine ("/select ".data ++ s), .waitPattern .selecting,
           .sendLine "/join".data, .waitPattern .youJoined] := by
  unfold join_conversation at h
  split at h
  · injection h with h1 h2
    exact absurd h1 (by simp)
  · rename_i gs1 d1 a1 hex1
    obtain ⟨r1, hcu1, hd1, ha1⟩ := expect_ok _ _ _ _ _ hex1
    subst hd1
    split at h
    · injection h with h1 h2
      exact absurd h1 (by simp)
    · rename_i n d2 a2 hsel
      obtain ⟨gs2, r2, hcu2, hn, hd2, ha2⟩ := select_conversation_ok _ _ _ _ _ hsel
      subst hd2
      split at h
      · injection h with h1 h2
        exact absurd h1 (by simp)
      · rename_i u3 d3 a3 hsm
        obtain ⟨hd3, ha3⟩ := send_message_ok _ _ _ _ _ hsm
        subst hd3
        split at h
        · rename_i gs4 d4 a4 hex4
          obtain ⟨r4, hcu4, hd4, ha4⟩ := expect_ok _ _ _ _ _ hex4
          subst hd4
          injection h with h1 h2
          injection h2 with h2 h3
          subst h2; subst h3
          exact ⟨n, r4, rfl, by rw [ha1, ha2, ha3, ha4]; rfl⟩
        · rename_i e d4 a4 hex4
          injection h with h1 h2
          exact absurd h1 (by simp)

/-! ## Decimal rendering round trip -/

theorem natOfDigits_append (xs : List Char) (c : Char) :
    natOfDigits (xs ++ [c]) = 10 * natOfDigits xs + (c.toNat - 48) := by
  simp [natOfDigits, List.foldl_append]

theorem digitChar_toNat (k : Nat) (hk : k < 10) :
    (digitChar k).toNat - 48 = k := by
  interval_cases k <;> rfl

theorem natOfDigits_renderNatAux (fuel : Nat) :
    ∀ n, n < fuel → natOfDigits (renderNatAux fuel n) = n := by
  induction fuel with
  | zero => intro n h; omega
  | succ fuel ih =>
    intro n h
    unfold renderNatAux
    split
    · rename_i h10
      have hd := digitChar_toNat n h10
      simp [natOfDigits]
      omega
    · rename_i h10
      have hlt : n / 10 < n := Nat.div_lt_self (by omega) (by omega)
      rw [natOfDigits_append, ih (n / 10) (by omega),
        digitChar_toNat (n % 10) (by omega)]
      omega

/-- Parsing back the decimal rendering of `n` gives `n`. -/
theorem natOfDigits_renderNat (n : Nat) : natOfDigits (renderNat n) = n :=
  natOfDigits_renderNatAux (n + 1) n (by omega)

/-! ## Claim theorems -/

/-- Takes the internal run of a successful `read_line` apart. -/
theorem read_line_ok_inv (t : ℤ) (d : Driver) (line : List Char) (d1 : Driver)
    (h : read_line t d = some (.ok line, d1)) :
    ∃ tEnd rest, readLineAux d.oracle (d.now + t) d.now [] =
      some (.ok line, tEnd, rest) ∧ d1 = { d with now := tEnd, oracle := rest } := by
  unfold read_line at h
  split at h
  · injection h with hp
    injection hp with h1 h2
    exact absurd h1 (by simp)
  · split at h
    · simp at h
    · rename_i r tEnd rest heq
      injection h with hp
      injection hp with h1 h2
      subst h1
      exact ⟨tEnd, rest, heq, h2.symm⟩

/-- C1.  Every line consumed by `read_event` that matches the message pattern
`^\*\* <(\d+)> <(\w+)> (.*)$` is appended, as the raw matched line, to the
FIFO message queue; the `MessageEvent` that queue entry denotes has
conversation id, sender handle and body equal, byte for byte, to the first,
second and third capture groups of the line (the conversation id being the
integer those digits spell); a non-matching line enqueues nothing. -/
theorem c1_read_event_classifies (t : ℤ) (d : Driver) (line : List Char)
    (d1 : Driver) (h : read_line t d = some (.ok line, d1)) :
    (∀ g1 g2 g3, MsgPat line g1 g2 g3 →
      read_event t d =
        some (.ok (), { d1 with messages := d1.messages ++ [line] }) ∧
      msgGroups line = some (g1, g2, g3) ∧
      mkMessageEvent line = some ⟨natOfDigits g1, g2, g3⟩) ∧
    ((∀ g1 g2 g3, ¬ MsgPat line g1 g2 g3) →
      read_event t d = some (.ok (), d1)) := by
  obtain ⟨tEnd, rest, haux, hd1⟩ := read_line_ok_inv t d line d1 h
  have hln : '\n' ∉ line :=
    readLineAux_ok_no_newline d.oracle (d.now + t) d.now [] line tEnd rest haux
      (by intro c hc; simp at hc)
  constructor
  · intro g1 g2 g3 hpat
    have hmg : msgGroups line = some (g1, g2, g3) :=
      msgGroups_complete line g1 g2 g3 hpat
    refine ⟨?_, hmg, ?_⟩
    · unfold read_event
      rw [h]
      simp [hmg]
    · unfold mkMessageEvent
      rw [hmg]
      rfl
  · intro hno
    have hmg : msgGroups line = none := by
      cases hmg : msgGroups line with
      | none => rfl
      | some g =>
        obtain ⟨a, b, c⟩ := g
        exact absurd (msgGroups_sound line a b c hln hmg) (hno a b c)
    unfold read_event
    rw [h]
    simp [hmg]

/-- C2.  `read_line` fixes one absolute deadline at entry and budgets every
underlying non-blocking byte read with the remaining time, so in any
environment obeying the pexpect contract the clock on return never exceeds
entry time plus the timeout; and the only error it can return is the
propagated timeout error (when a process is attached). -/
theorem c2_read_line_deadline (d : Driver) (p : ProcessHandle) (timeout : ℤ)
    (res : Except Err (List Char)) (d' : Driver)
    (hp : d._process = some p) (ht : 0 ≤ timeout)
    (h : read_line timeout d = some (res, d')) :
    d'.now ≤ d.now + timeout ∧ ∀ e, res = .error e → e = .timeout := by
  unfold read_line at h
  split at h
  · rename_i hnone
    rw [hp] at hnone
    exact absurd hnone (by simp)
  · split at h
    · simp at h
    · rename_i r tEnd rest heq
      injection h with hpair
      injection hpair with h1 h2
      subst h1
      subst h2
      have hb := readLineAux_deadline d.oracle (d.now + timeout) d.now [] r
        tEnd rest heq (by linarith)
      exact ⟨hb.1, hb.2⟩

/-! ## Concrete fixtures used by the witnesses -/

/-- A live process handle used by the concrete witness states. -/
def wProc : ProcessHandle := ⟨7, true⟩

/-- An oracle that delivers every byte of `s` instantly. -/
def oracleOf (s : List Char) : List ReadResult :=
  s.map (fun c => ⟨0, some c⟩)

/-- A freshly constructed driver for the witness states. -/
def wInit : Driver :=
  clientInit "alice@example.com".data "pw".data "/opt/np1sec".data
    "/usr/lib".data

/-- A connected driver used as the base of the concrete witness states. -/
def wBase : Driver := { wInit with _process := some wProc }

def wC1 : Driver := { wBase with oracle := oracleOf "** <1> <alice> hi\n".data }

theorem c1_witness :
    read_event 5 wC1 =
      some (.ok (), { wC1 with
        oracle := [], messages := ["** <1> <alice> hi".data] }) ∧
    msgGroups "** <1> <alice> hi".data =
      some ("1".data, "alice".data, "hi".data) ∧
    mkMessageEvent "** <1> <alice> hi".data =
      some ⟨natOfDigits "1".data, "alice".data, "hi".data⟩ :=
  (c1_read_event_classifies 5 wC1 "** <1> <alice> hi".data
      { wC1 with oracle := [] } (by decide)).1
    "1".data "alice".data "hi".data (by decide)

def wC2 : Driver := { wBase with oracle := [⟨1, some 'h'⟩, ⟨1, some '\n'⟩] }

theorem c2_witness :
    ({ wC2 with now := 2, oracle := [] } : Driver).now ≤ wC2.now + 5 ∧
    ∀ e, (Except.ok "h".data : Except Err (List Char)) = .error e →
      e = .timeout :=
  c2_read_line_deadline wC2 wProc 5 (.ok "h".data)
    { wC2 with now := 2, oracle := [] } (by decide) (by norm_num) (by decide)

/-- One polling step of the `read_message` loop with an empty queue reduces to
the loop on the state `read_event` produced. -/
theorem readMessageLoop_step (fuel : Nat) (endT : ℤ) (d d1 : Driver)
    (hm : d.messages = [])
    (hre : read_event (qmax 0 (endT - d.now)) d = some (.ok (), d1)) :
    readMessageLoop (fuel + 1) endT d = readMessageLoop fuel endT d1 := by
  conv_lhs => unfold readMessageLoop
  rw [hm, hre]

/-- C4.  The message queue is FIFO: `read_message` always removes and returns
the head (oldest element) of the queue, two successive calls return the two
oldest elements in order, and after a `read_event` call inside the polling
loop the queue is re-checked before any further line is read, so a message
just enqueued is returned at once. -/
theorem c4_message_queue_fifo (d : Driver) (fuel : Nat) (tq : ℤ) :
    (∀ m1 m2 rest, d.messages = m1 :: m2 :: rest →
      read_message (fuel + 1) tq d =
        some (.ok m1, { d with messages := m2 :: rest }) ∧
      read_message (fuel + 1) tq { d with messages := m2 :: rest } =
        some (.ok m2, { d with messages := rest })) ∧
    (∀ m ms, d.messages = m :: ms →
      read_message (fuel + 1) tq d = some (.ok m, { d with messages := ms })) ∧
    (∀ d1 m ms, d.messages = [] →
      read_event (qmax 0 (d.now + tq - d.now)) d = some (.ok (), d1) →
      d1.messages = m :: ms →
      read_message (fuel + 2) tq d = some (.ok m, { d1 with messages := ms })) := by
  refine ⟨?_, ?_, ?_⟩
  · intro m1 m2 rest hm
    constructor
    · exact readMessageLoop_pop fuel (d.now + tq) d m1 (m2 :: rest) hm
    · exact readMessageLoop_pop fuel (d.now + tq) { d with messages := m2 :: rest }
        m2 rest rfl
  · intro m ms hm
    exact readMessageLoop_pop fuel (d.now + tq) d m ms hm
  · intro d1 m ms hm hre hm1
    unfold read_message
    rw [readMessageLoop_step (fuel + 1) (d.now + tq) d d1 hm hre]
    exact readMessageLoop_pop fuel (d.now + tq) d1 m ms hm1

def wC4 : Driver := { wBase with messages := ["a".data, "b".data] }

def wC4e : Driver := { wBase with oracle := oracleOf "** <2> <bob> yo\n".data }

theorem c4_witness :
    read_message 1 5 wC4 =
      some (.ok "a".data, { wC4 with messages := ["b".data] }) ∧
    read_message 1 5 { wC4 with messages := ["b".data] } =
      some (.ok "b".data, { wC4 with messages := [] }) ∧
    read_message 2 5 wC4e =
      some (.ok "** <2> <bob> yo".data,
        { wC4e with oracle := [], messages := [] }) := by
  have h := c4_message_queue_fifo wC4 0 5
  have h2 := c4_message_queue_fifo wC4e 0 5
  exact ⟨(h.1 "a".data "b".data [] rfl).1, (h.1 "a".data "b".data [] rfl).2,
    h2.2.2 { wC4e with oracle := [], messages := ["** <2> <bob> yo".data] }
      "** <2> <bob> yo".data [] rfl (by decide) rfl⟩

/-- C7 (amended).  A timeout failure of any blocking call leaves the message
queue, the process handle, the pattern-wait buffer and the selected
conversation unchanged; `expect` additionally retains its whole state (pexpect
keeps unmatched data, so an `expect` retry rescans the same output); but
`read_line` / `read_event` / `read_message` do consume the byte stream, so
bytes already read before the timeout — including a partial line — are
discarded rather than left for a retry. -/
theorem c7_timeout_atomicity_amended :
    (∀ (t : ℤ) (d : Driver) e d', read_line t d = some (.error e, d') →
      d'.messages = d.messages ∧ d'._process = d._process ∧
      d'.pending = d.pending ∧ d'.conversation_id = d.conversation_id) ∧
    (∀ (t : ℤ) (d : Driver) e d', read_event t d = some (.error e, d') →
      d'.messages = d.messages ∧ d'._process = d._process ∧
      d'.pending = d.pending ∧ d'.conversation_id = d.conversation_id) ∧
    (∀ (fuel : Nat) (t : ℤ) (d : Driver) e d',
      read_message fuel t d = some (.error e, d') →
      d'.messages = d.messages ∧ d'._process = d._process ∧
      d'.pending = d.pending ∧ d'.conversation_id = d.conversation_id) ∧
    (∀ p (d : Driver) e d' a, expect p d = (.error e, d', a) → d' = d) := by
  refine ⟨?_, ?_, ?_, ?_⟩
  · intro t d e d' h
    have hf := read_line_frame t d (.error e) d' h
    exact ⟨hf.2.1, hf.1, hf.2.2.1, hf.2.2.2.1⟩
  · intro t d e d' h
    have hf := read_event_frame t d (.error e) d' h
    exact ⟨read_event_error_messages t d e d' h, hf.1, hf.2.1, hf.2.2.1⟩
  · intro fuel t d e d' h
    exact readMessageLoop_error_frame fuel (d.now + t) d e d' h
  · intro p d e d' a h
    exact expect_error p d e d' a h

def wC7 : Driver :=
  { wBase with oracle := [⟨0, some 'h'⟩, ⟨0, some 'e'⟩, ⟨2, none⟩,
      ⟨1, some 'l'⟩, ⟨0, some 'l'⟩, ⟨0, some 'o'⟩, ⟨0, some '\n'⟩] }

def wC7x : Driver :=
  { wC7 with now := 2, oracle := [⟨1, some 'l'⟩, ⟨0, some 'l'⟩,
      ⟨0, some 'o'⟩, ⟨0, some '\n'⟩] }

def wC7p : Driver :=
  { wBase with oracle := [⟨0, some 'h'⟩, ⟨0, some 'e'⟩, ⟨3, some 'l'⟩,
      ⟨0, some 'l'⟩, ⟨0, some 'o'⟩, ⟨0, some '\n'⟩] }

theorem c7_witness :
    wC7x.messages = wC7.messages ∧ wC7x._process = wC7._process ∧
    wC7x.pending = wC7.pending ∧ wC7x.conversation_id = wC7.conversation_id :=
  c7_timeout_atomicity_amended.1 2 wC7 .timeout wC7x (by decide)

/-- Counterexample to C7 as stated.  The child emits `he`, stalls past the
2-tick deadline, then emits `llo\n`.  The timed-out `read_line` has consumed
the bytes `he` from the stream (the driver state is visibly changed), so the
caller's retry returns `llo` — while a single patient call on the same byte
schedule returns the full line `hello`.  The failed call therefore does not
leave the driver's state unchanged for a retry. -/
theorem c7_counterexample :
    read_line 2 wC7 = some (.error .timeout, wC7x) ∧
    wC7x ≠ wC7 ∧
    read_line 8 wC7x = some (.ok "llo".data, { wC7x with now := 3, oracle := [] }) ∧
    read_line 10 wC7p = some (.ok "hello".data, { wC7p with now := 3, oracle := [] }) ∧
    ("llo".data : List Char) ≠ "hello".data := by
  refine ⟨by decide, by decide, by decide, by decide, by decide⟩

/-- C5.  While a process handle exists (in particular while it is live),
`connect` spawns nothing and waits for nothing: it only rebuilds `self.env`,
emits no action at all, and leaves the process handle — so there is never a
second live handle per driver. -/
theorem c5_connect_idempotent (d : Driver) (p : ProcessHandle) (pid : Nat)
    (out : List (List Char)) (hp : d._process = some p) (hl : p.alive = true) :
    connect pid out d =
      (.ok (), { d with
        env := some (d.np1secPath ++ ":".data ++ d.ldLibraryPath) }, []) ∧
    (connect pid out d).2.1._process = d._process := by
  constructor
  · unfold connect
    rw [hp]
  · unfold connect
    rw [hp]

theorem c5_witness :
    connect 9 ["** Connected".data] wBase =
      (.ok (), { wBase with
        env := some (wBase.np1secPath ++ ":".data ++ wBase.ldLibraryPath) }, []) ∧
    (connect 9 ["** Connected".data] wBase).2.1._process = wBase._process :=
  c5_connect_idempotent wBase wProc 9 ["** Connected".data] rfl rfl

/-- C6 (amended).  `select_conversation(id)` sends `/select id` and then waits
for `\*\* Selecting conversation (\d+)` with *any* id: it stores and returns
the integer captured from the first confirmation line present, which equals
the requested id exactly when that confirmation echoes the requested id — the
code does not pin the awaited confirmation to the id it asked for. -/
theorem c6_select_conversation_amended (cid : Nat) (d : Driver) (n : Nat)
    (d' : Driver) (a : List Action)
    (h : select_conversation (renderNat cid) d = (.ok n, d', a)) :
    a = [.sendLine ("/select ".data ++ renderNat cid), .waitPattern .selecting] ∧
    d'.conversation_id = some n ∧
    ∃ gs rest, consumeUntil Pat.selecting d.pending = some (gs, rest) ∧
      n = natOfDigits (gs.headD []) ∧
      d' = { d with pending := rest, conversation_id := some n } ∧
      (gs = [renderNat cid] → n = cid) := by
  obtain ⟨gs, rest, hcu, hn, hd, ha⟩ := select_conversation_ok _ _ _ _ _ h
  refine ⟨ha, by rw [hd], gs, rest, hcu, hn, hd, ?_⟩
  intro hgs
  subst hgs
  rw [hn]
  simpa using natOfDigits_renderNat cid

def wC6 : Driver := { wBase with pending := ["** Selecting conversation 7".data] }

/-- Counterexample to C6 as stated: asked to select conversation 3 while the
buffered output carries `** Selecting conversation 7`, the driver matches that
confirmation, stores 7 and returns 7 — not the requested 3. -/
theorem c6_counterexample :
    select_conversation (renderNat 3) wC6 =
      (.ok 7, { wC6 with pending := [], conversation_id := some 7 },
        [.sendLine "/select 3".data, .waitPattern .selecting]) ∧
    (7 : Nat) ≠ 3 :=
  ⟨by decide, by decide⟩

def wC6b : Driver := { wBase with pending := ["** Selecting conversation 3".data] }

theorem c6_witness :
    ([Action.sendLine ("/select ".data ++ renderNat 3),
        Action.waitPattern Pat.selecting] =
      [Action.sendLine ("/select ".data ++ renderNat 3),
        Action.waitPattern Pat.selecting]) ∧
    ({ wC6b with
        pending := ([] : List (List Char)), conversation_id := some 3 }
      : Driver).conversation_id = some 3 ∧
    ∃ gs rest, consumeUntil Pat.selecting wC6b.pending = some (gs, rest) ∧
      3 = natOfDigits (gs.headD []) ∧
      ({ wC6b with
          pending := ([] : List (List Char)), conversation_id := some 3 }
        : Driver) =
        { wC6b with pending := rest, conversation_id := some 3 } ∧
      (gs = [renderNat 3] → 3 = 3) :=
  c6_select_conversation_amended 3 wC6b 3
    { wC6b with pending := [], conversation_id := some 3 }
    [Action.sendLine ("/select ".data ++ renderNat 3),
      Action.waitPattern Pat.selecting]
    (by decide)

/-- C8.  `stop` forcibly terminates the child exactly when one is live and
marks the handle dead; it is idempotent (a second `stop` changes nothing and
kills nothing), and with no process spawned it changes nothing at all. -/
theorem c8_stop (d : Driver) :
    (∀ p, d._process = some p → p.alive = true →
      stop d = ({ d with _process := some ⟨p.pid, false⟩ }, [.terminate p.pid])) ∧
    (d._process = none → stop d = (d, [])) ∧
    (stop (stop d).1).1 = (stop d).1 ∧
    (stop (stop d).1).2 = [] ∧
    (∀ p, d._process = some p → (stop d).1._process = some ⟨p.pid, false⟩) := by
  refine ⟨?_, ?_, ?_, ?_, ?_⟩
  · intro p hp hl
    simp [stop, hp, hl]
  · intro hp
    simp [stop, hp]
  · cases hp : d._process with
    | none => simp [stop, hp]
    | some p => simp [stop, hp]
  · cases hp : d._process with
    | none => simp [stop, hp]
    | some p => simp [stop, hp]
  · intro p hp
    simp [stop, hp]

theorem c8_witness :
    stop wBase = ({ wBase with _process := some ⟨wProc.pid, false⟩ },
      [.terminate wProc.pid]) ∧
    stop wInit = (wInit, []) ∧
    (stop wBase).1._process = some ⟨wProc.pid, false⟩ :=
  ⟨(c8_stop wBase).1 wProc rfl rfl, (c8_stop wInit).2.1 rfl,
    (c8_stop wBase).2.2.2.2 wProc rfl⟩

/-- C9.  Every operation that needs a live child process — `send_message`,
`expect`, `set_debug`, `read_line` — fails with the process-unavailable error
when invoked on a driver that has spawned none, leaving the driver
unchanged. -/
theorem c9_process_unavailable (d : Driver) (h : d._process = none) :
    (∀ m, send_message m d = (.error .processUnavailable, d, [])) ∧
    (∀ p, expect p d = (.error .processUnavailable, d, [])) ∧
    (∀ b, set_debug b d = (.error .processUnavailable, d, [])) ∧
    (∀ t : ℤ, read_line t d = some (.error .processUnavailable, d)) := by
  refine ⟨?_, ?_, ?_, ?_⟩ <;> intro x <;>
    simp [send_message, expect, set_debug, read_line, h]

theorem c9_witness :
    send_message "/create".data wInit = (.error .processUnavailable, wInit, []) ∧
    expect Pat.connected wInit = (.error .processUnavailable, wInit, []) ∧
    set_debug true wInit = (.error .processUnavailable, wInit, []) ∧
    read_line 5 wInit = some (.error .processUnavailable, wInit) := by
  have h := c9_process_unavailable wInit rfl
  exact ⟨h.1 _, h.2.1 _, h.2.2.1 _, h.2.2.2 _⟩

/-! ## State-projection helper lemmas -/

theorem send_message_state (m : List Char) (d : Driver) :
    (send_message m d).2.1 = d := by
  unfold send_message
  split <;> rfl

theorem expect_pending_only (p : Pat) (d : Driver) :
    ∃ rest, (expect p d).2.1 = { d with pending := rest } := by
  unfold expect
  split
  · exact ⟨d.pending, rfl⟩
  · split
    · rename_i gs rest hcu
      exact ⟨rest, rfl⟩
    · exact ⟨d.pending, rfl⟩

theorem expect_conv (p : Pat) (d : Driver) :
    (expect p d).2.1.conversation_id = d.conversation_id := by
  obtain ⟨rest, h⟩ := expect_pending_only p d
  rw [h]

theorem invite_conversation_conv (u : List Char) (d : Driver) :
    (invite_conversation u d).2.1.conversation_id = d.conversation_id := by
  unfold invite_conversation
  split
  · rename_i e d1 a1 hsm
    have h1 : d1 = d := by
      have hs := send_message_state ("/invite ".data ++ u) d
      rw [hsm] at hs
      exact hs
    subst h1
    rfl
  · rename_i u1 d1 a1 hsm
    have h1 : d1 = d := by
      have hs := send_message_state ("/invite ".data ++ u) d
      rw [hsm] at hs
      exact hs
    split
    · rename_i gs d2 a2 hE
      have h2 := expect_conv (.inviteConfirm d1.username u) d1
      rw [hE] at h2
      exact h2.trans (by rw [h1])
    · rename_i e d2 a2 hE
      have h2 := expect_conv (.inviteConfirm d1.username u) d1
      rw [hE] at h2
      exact h2.trans (by rw [h1])

theorem create_conversation_conv (d : Driver) :
    (create_conversation d).2.1.conversation_id = d.conversation_id := by
  unfold create_conversation
  split
  · rename_i e d1 a1 hsm
    have h1 : d1 = d := by
      have hs := send_message_state "/create".data d
      rw [hsm] at hs
      exact hs
    subst h1
    rfl
  · rename_i u1 d1 a1 hsm
    have h1 : d1 = d := by
      have hs := send_message_state "/create".data d
      rw [hsm] at hs
      exact hs
    split
    · rename_i gs d2 a2 hE
      have h2 := expect_conv Pat.created d1
      rw [hE] at h2
      exact h2.trans (by rw [h1])
    · rename_i e d2 a2 hE
      have h2 := expect_conv Pat.created d1
      rw [hE] at h2
      exact h2.trans (by rw [h1])

theorem readMessageLoop_conv (fuel : Nat) :
    ∀ (endT : ℤ) (d : Driver) r d',
      readMessageLoop fuel endT d = some (r, d') →
      d'.conversation_id = d.conversation_id := by
  induction fuel with
  | zero => intro _ _ _ _ h; simp [readMessageLoop] at h
  | succ fuel ih =>
    intro endT d r d' h
    unfold readMessageLoop at h
    split at h
    · rename_i m ms hm
      injection h with hp
      injection hp with h1 h2
      subst h2
      rfl
    · rename_i hm
      split at h
      · simp at h
      · rename_i e d1 hre
        injection h with hp
        injection hp with h1 h2
        subst h2
        exact (read_event_frame _ d (.error e) d1 hre).2.2.1
      · rename_i d1 hre
        exact (ih endT d1 r d' h).trans
          (read_event_frame _ d (.ok ()) d1 hre).2.2.1

/-- C3.  `invite_and_join_conversation` performs exactly, and in exactly this
order: the inviter sends the invite and waits for its own invite
confirmation; then the invitee waits for the invitation notification, selects
the conversation, sends `/join` and waits for its join confirmation; and only
then does the inviter wait to observe `<invitee> joined the chat session` on
its own stream — so a successful call returns only after both drivers have
independently observed confirmatory text. -/
theorem c3_invite_and_join_order (inviter invitee i2 c2 : Driver)
    (tr : List (Role × Action))
    (h : invite_and_join_conversation inviter invitee = (.ok (), i2, c2, tr)) :
    tr = [(.inviterR, .sendLine ("/invite ".data ++ invitee.username)),
          (.inviterR, .waitPattern
            (.inviteConfirm inviter.username invitee.username)),
          (.inviteeR, .waitPattern
            (.invitedTo (fmtOptId inviter.conversation_id))),
          (.inviteeR, .sendLine
            ("/select ".data ++ fmtOptId inviter.conversation_id)),
          (.inviteeR, .waitPattern .selecting),
          (.inviteeR, .sendLine "/join".data),
          (.inviteeR, .waitPattern .youJoined),
          (.inviterR, .waitPattern (.userJoined invitee.username))] := by
  unfold invite_and_join_conversation at h
  split at h
  · injection h with h1 h2
    exact absurd h1 (by simp)
  · rename_i u1 i1 a1 hinv
    obtain ⟨gs0, r0, hcu0, hi1, ha1⟩ := invite_conversation_ok _ _ _ _ _ hinv
    subst hi1
    split at h
    · injection h with h1 h2
      exact absurd h1 (by simp)
    · rename_i c1 a2 hjoin
      obtain ⟨n, rj, hc1, ha2⟩ := join_conversation_ok _ _ _ _ hjoin
      subst hc1
      split at h
      · rename_i gs3 i3 a3 hexp
        obtain ⟨r3, hcu3, hi3, ha3⟩ := expect_ok _ _ _ _ _ hexp
        injection h with h1 h2
        injection h2 with h2 h3
        injection h3 with h3 h4
        subst h4
        rw [ha1, ha2, ha3]
        simp [fmtOptId]
      · rename_i e i3 a3 hexp
        injection h with h1 h2
        exact absurd h1 (by simp)

def wInviter : Driver :=
  { wBase with
    conversation_id := some 1,
    pending := ["** <1> alice invited user bob".data,
                "bob joined the chat session".data] }

def wInviteeInit : Driver :=
  clientInit "bob@example.com".data "pw".data "/opt/np1sec".data
    "/usr/lib".data

def wInvitee : Driver :=
  { wInviteeInit with
    _process := some ⟨8, true⟩,
    pending := ["** Invited to conversation 1".data,
                "** Selecting conversation 1".data,
                "you joined the chat session".data] }

def wTrace : List (Role × Action) :=
  [(.inviterR, .sendLine "/invite bob".data),
   (.inviterR, .waitPattern (.inviteConfirm "alice".data "bob".data)),
   (.inviteeR, .waitPattern (.invitedTo "1".data)),
   (.inviteeR, .sendLine "/select 1".data),
   (.inviteeR, .waitPattern .selecting),
   (.inviteeR, .sendLine "/join".data),
   (.inviteeR, .waitPattern .youJoined),
   (.inviterR, .waitPattern (.userJoined "bob".data))]

theorem c3_witness :
    wTrace =
      [(.inviterR, .sendLine ("/invite ".data ++ wInvitee.username)),
       (.inviterR, .waitPattern
         (.inviteConfirm wInviter.username wInvitee.username)),
       (.inviteeR, .waitPattern
         (.invitedTo (fmtOptId wInviter.conversation_id))),
       (.inviteeR, .sendLine
         ("/select ".data ++ fmtOptId wInviter.conversation_id)),
       (.inviteeR, .waitPattern .selecting),
       (.inviteeR, .sendLine "/join".data),
       (.inviteeR, .waitPattern .youJoined),
       (.inviterR, .waitPattern (.userJoined wInvitee.username))] :=
  c3_invite_and_join_order wInviter wInvitee
    { wInviter with pending := [] }
    { wInvitee with pending := [], conversation_id := some 1 }
    wTrace (by decide)

/-- C10.  The driver's current conversation id starts as `None` and is
assigned only by `select_conversation`, which stores the integer captured
from the `Selecting conversation` confirmation it matched;
`join_conversation` changes it only through its inner `select_conversation`
call, `invite_and_join_conversation` never changes the inviter's; and
`connect`, `create_conversation`, `invite_conversation`, `stop`,
`send_message`, `expect`, `set_debug`, `read_line`, `read_event` and
`read_message` all leave it unchanged. -/
theorem c10_conversation_id_invariant :
    (∀ user pw np ld, (clientInit user pw np ld).conversation_id = none) ∧
    (∀ pid out (d : Driver),
      (connect pid out d).2.1.conversation_id = d.conversation_id) ∧
    (∀ d : Driver,
      (create_conversation d).2.1.conversation_id = d.conversation_id) ∧
    (∀ u (d : Driver),
      (invite_conversation u d).2.1.conversation_id = d.conversation_id) ∧
    (∀ d : Driver, (stop d).1.conversation_id = d.conversation_id) ∧
    (∀ m (d : Driver),
      (send_message m d).2.1.conversation_id = d.conversation_id) ∧
    (∀ p (d : Driver), (expect p d).2.1.conversation_id = d.conversation_id) ∧
    (∀ b (d : Driver),
      (set_debug b d).2.1.conversation_id = d.conversation_id) ∧
    (∀ (t : ℤ) (d : Driver) r d', read_line t d = some (r, d') →
      d'.conversation_id = d.conversation_id) ∧
    (∀ (t : ℤ) (d : Driver) r d', read_event t d = some (r, d') →
      d'.conversation_id = d.conversation_id) ∧
    (∀ fuel (t : ℤ) (d : Driver) r d', read_message fuel t d = some (r, d') →
      d'.conversation_id = d.conversation_id) ∧
    (∀ s (d : Driver) n d' a, select_conversation s d = (.ok n, d', a) →
      d'.conversation_id = some n) ∧
    (∀ s (d : Driver) e d' a, select_conversation s d = (.error e, d', a) →
      d'.conversation_id = d.conversation_id) ∧
    (∀ s (d : Driver) d' a, join_conversation s d = (.ok (), d', a) →
      ∃ d1 g a1 n d2 a2, expect (.invitedTo s) d = (.ok g, d1, a1) ∧
        select_conversation s d1 = (.ok n, d2, a2) ∧
        d'.conversation_id = some n) ∧
    (∀ (i c : Driver) r i' c' tr,
      invite_and_join_conversation i c = (r, i', c', tr) →
      i'.conversation_id = i.conversation_id) := by
  refine ⟨fun _ _ _ _ => rfl, ?_, create_conversation_conv, invite_conversation_conv,
    ?_, ?_, expect_conv, ?_, ?_, ?_, ?_, ?_, ?_, ?_, ?_⟩
  · intro pid out d
    unfold connect
    split
    · rfl
    · have h2 := expect_conv Pat.connected
        { d with
          env := some (d.np1secPath ++ ":".data ++ d.ldLibraryPath),
          _process := some ⟨pid, true⟩, pending := out }
      split
      · rename_i gs d2 as hE
        rw [hE] at h2
        exact h2
      · rename_i e d2 as hE
        rw [hE] at h2
        exact h2
  · intro d
    unfold stop
    split
    · rfl
    · rfl
  · intro m d
    rw [send_message_state]
  · intro b d
    unfold set_debug
    split
    · rfl
    · rfl
  · intro t d r d' h
    exact (read_line_frame t d r d' h).2.2.2.1
  · intro t d r d' h
    exact (read_event_frame t d r d' h).2.2.1
  · intro fuel t d r d' h
    exact readMessageLoop_conv fuel (d.now + t) d r d' h
  · intro s d n d' a h
    obtain ⟨gs, rest, hcu, hn, hd, ha⟩ := select_conversation_ok _ _ _ _ _ h
    rw [hd]
  · intro s d e d' a h
    rw [select_conversation_error s d e d' a h]
  · intro s d d' a h
    unfold join_conversation at h
    split at h
    · injection h with h1 h2
      exact absurd h1 (by simp)
    · rename_i gs1 d1 a1 hex1
      split at h
      · injection h with h1 h2
        exact absurd h1 (by simp)
      · rename_i n d2 a2 hsel
        split at h
        · injection h with h1 h2
          exact absurd h1 (by simp)
        · rename_i u3 d3 a3 hsm
          have hd3 : d3 = d2 := by
            have hs := send_message_state "/join".data d2
            rw [hsm] at hs
            exact hs
          rw [hd3] at h
          split at h
          · rename_i gs4 d4 a4 hex4
            obtain ⟨r4, hcu4, hd4, ha4⟩ := expect_ok _ _ _ _ _ hex4
            injection h with h1 h2
            injection h2 with h2 h3
            subst h2
            refine ⟨d1, gs1, a1, n, d2, a2, hex1, hsel, ?_⟩
            obtain ⟨gs2, r2, hcu2, hn2, hd2, ha2⟩ :=
              select_conversation_ok _ _ _ _ _ hsel
            subst hd2
            subst hd4
            rfl
          · rename_i e d4 a4 hex4
            injection h with h1 h2
            exact absurd h1 (by simp)
  · intro i c r i' c' tr h
    unfold invite_and_join_conversation at h
    split at h
    · rename_i e i1 a1 hinv
      injection h with h1 h2
      injection h2 with h2 h3
      subst h2
      have hc := invite_conversation_conv c.username i
      rw [hinv] at hc
      exact hc
    · rename_i u1 i1 a1 hinv
      have hc : i1.conversation_id = i.conversation_id := by
        have hcc := invite_conversation_conv c.username i
        rw [hinv] at hcc
        exact hcc
      split at h
      · rename_i e c1 a2 hjoin
        injection h with h1 h2
        injection h2 with h2 h3
        subst h2
        exact hc
      · rename_i c1 a2 hjoin
        split at h
        · rename_i gs3 i3 a3 hexp
          injection h with h1 h2
          injection h2 with h2 h3
          subst h2
          have he := expect_conv (Pat.userJoined c1.username) i1
          rw [hexp] at he
          exact he.trans hc
        · rename_i e i3 a3 hexp
          injection h with h1 h2
          injection h2 with h2 h3
          subst h2
          have he := expect_conv (Pat.userJoined c1.username) i1
          rw [hexp] at he
          exact he.trans hc

theorem c10_witness :
    (clientInit "u@h".data "p".data "np".data "ld".data).conversation_id
      = none ∧
    ({ wC6b with
        pending := ([] : List (List Char)), conversation_id := some 3 }
      : Driver).conversation_id = some 3 ∧
    ({ wC4 with messages := ["b".data] } : Driver).conversation_id
      = wC4.conversation_id := by
  obtain ⟨h1, h2, h3, h4, h5, h6, h7, h8, h9, h10, h11, h12, h13, h14, h15⟩ :=
    c10_conversation_id_invariant
  refine ⟨h1 "u@h".data "p".data "np".data "ld".data, ?_, ?_⟩
  · exact h12 (renderNat 3) wC6b 3
      { wC6b with pending := [], conversation_id := some 3 }
      [Action.sendLine ("/select ".data ++ renderNat 3),
        Action.waitPattern Pat.selecting] (by decide)
  · exact h11 1 5 wC4 (.ok "a".data) { wC4 with messages := ["b".data] }
      (by decide)

end EchoChamber
